import Mathlib

/-!
Verification development for the webcrawler repository (src/webcrawler.py,
src/robotsparser.py, src/webpage.py).

The Python code is shallowly embedded below.  External collaborators (the
HTTP session, BeautifulSoup, urllib robotparser internals, wall-clock time)
are modelled as explicit parameters: a `CrawlWorld` supplies, per URL, the
fetch verdict, the extracted page record and the fetch duration, and a
`LoadOutcome` supplies the result of reading robots.txt.  Wall-clock time is
a `Nat` counter that advances by the world-given duration at each fetch and
by the crawl delay at each sleep; `time.time() - start_time` is the counter
value (start normalised to 0, with an arbitrary setup offset for the work
done before the loop).  Python lists used as stacks are Lean lists with the
head as the top of the stack.
-/

/-- Python substring containment `needle in hay` on lists of characters:
true iff `n` occurs contiguously in the second list. -/
def isInfixB (n : List Char) : List Char → Bool
  | [] => n.isEmpty
  | c :: t => n.isPrefixOf (c :: t) || isInfixB n t

/-- Python `needle in hay` for strings. -/
def pyIn (needle hay : String) : Bool :=
  isInfixB needle.data hay.data

/-- Python `s.rstrip("/")` as used in `RobotsTxtParser.__init__`. -/
def pyRstripSlash (s : String) : String :=
  String.mk (s.data.reverse.dropWhile (fun c => c == '/')).reverse

/-! ## robotsparser.py -/

/-- State of `RobotsTxtParser` (robotsparser.py).  The wrapped
`urllib.robotparser.RobotFileParser` is external; after a successful
`read()` it amounts to a verdict function URL -> Bool for the configured
user agent, held in `ruleFn`, plus the parsed optional crawl delay.
`urllib` only ever produces integer crawl delays (its parser accepts a
`Crawl-delay` value only when `isdigit`), so the delay is `Option Nat`. -/
structure RobotsTxtParser where
  base_url : String
  user_agent : String
  ruleFn : String → Bool
  crawl_delay : Option Nat
  is_loaded : Bool

/-- `RobotsTxtParser.__init__`: a fresh, unread `RobotFileParser` answers
`can_fetch` with False (it has never been read), `crawl_delay = None`,
`is_loaded = False`. -/
def RobotsTxtParser.init (base ua : String) : RobotsTxtParser :=
  { base_url := pyRstripSlash base
    user_agent := ua
    ruleFn := fun _ => false
    crawl_delay := none
    is_loaded := false }

/-- Outcome of the external `set_url` + `read()` + `crawl_delay` calls inside
`load_robots_txt`: either the resource was fetched and parsed, yielding a
verdict function and an optional declared delay, or some exception was
raised (network error, timeout, malformed response). -/
inductive LoadOutcome where
  | success (ruleFn : String → Bool) (delay : Option Nat)
  | failure

/-- `RobotsTxtParser.load_robots_txt` (robotsparser.py lines 23-49).  The
`try` body stores the parsed state and sets `is_loaded := true`; the
`except` branch only sets `is_loaded := false` and returns `false` — no
exception escapes, the function is total. -/
def load_robots_txt (outcome : LoadOutcome) (p : RobotsTxtParser) :
    RobotsTxtParser × Bool :=
  match outcome with
  | .success f d => ({ p with ruleFn := f, crawl_delay := d, is_loaded := true }, true)
  | .failure => ({ p with is_loaded := false }, false)

/-- `RobotsTxtParser.can_fetch` (robotsparser.py lines 51-65): permissive
whenever `is_loaded` is false, otherwise the loaded verdict. -/
def RobotsTxtParser.can_fetch (p : RobotsTxtParser) (url : String) : Bool :=
  if p.is_loaded = false then true else p.ruleFn url

/-- `RobotsTxtParser.get_crawl_delay` (robotsparser.py lines 67-74). -/
def RobotsTxtParser.get_crawl_delay (p : RobotsTxtParser) : Option Nat :=
  p.crawl_delay

/-! ## webpage.py -/

/-- `ParseResult` dataclass (webpage.py).  `links` and `title` are Optional
in the Python dataclass and really are `None` on some paths. -/
structure ParseResult where
  content : String
  links : Option (List String)
  title : Option String
deriving DecidableEq

/-- What `soup.find(**find_kwargs)` hands back when it finds a region: the
text of its `title` tag if any, its `get_text()` and `prettify()` renderings,
and the `href` values of its anchor tags, all supplied by the external
BeautifulSoup library. -/
structure SubSoup where
  titleTag : Option String
  text : String
  pretty : String
  hrefs : List String

/-- The whitespace clean-up in `WebPageParser._parse_content`: strip each
line, split on double blanks, drop empty chunks, join with single blanks. -/
def cleanupText (s : String) : String :=
  let lines := (s.splitOn "\n").map String.trim
  let chunks := ((lines.map (fun l => l.splitOn "  ")).flatten).map String.trim
  String.intercalate " " (chunks.filter (fun c => !c.isEmpty))

/-- `WebPageParser._parse_content` (webpage.py lines 104-115): empty string
when the find produced nothing. -/
def parseContent (fmt : String) : Option SubSoup → String
  | none => ""
  | some s => cleanupText (if fmt == "text" then s.text else s.pretty)

/-- `WebPageParser._parse_title_` (webpage.py lines 119-123): `None` when the
find produced nothing, else the stripped title text or "No title". -/
def parseTitle : Option SubSoup → Option String
  | none => none
  | some s =>
    match s.titleTag with
    | some t => some t.trim
    | none => some "No title"

/-- `WebPageParser._parse_links` (webpage.py lines 127-139): `None` when the
find produced nothing, else hrefs made absolute by `urljoin` (external,
passed as `uj`) and restricted to http/https schemes. -/
def parseLinks (uj : String → String → String) (orig : String) :
    Option SubSoup → Option (List String)
  | none => none
  | some s =>
    some ((s.hrefs.map (uj orig)).filter
      (fun u => u.startsWith "http://" || u.startsWith "https://"))

/-- `WebPageParser.parse` (webpage.py lines 89-102), after the external soup
construction and script/style removal: `soup.find(**find_kwargs)` is the
`Option SubSoup` argument, `none` when the selection rule matches nothing. -/
def WebPageParser.parse (uj : String → String → String) (fmt : String)
    (soup : Option SubSoup) (origUrl : String) : ParseResult :=
  { content := parseContent fmt soup
    links := parseLinks uj origUrl soup
    title := parseTitle soup }

/-- `WebPage.get_same_domain_links` (webpage.py lines 171-187): `None` links
become the empty list; otherwise keep links whose netloc (computed by the
external `urlparse`, passed as `netloc`) equals the page netloc. -/
def get_same_domain_links (netloc : String → String) (pageUrl : String)
    (links : Option (List String)) : List String :=
  (links.getD []).filter (fun l => netloc l == netloc pageUrl)

/-- `WebPage.to_dict` (webpage.py lines 157-169): the page record stored per
crawled URL.  `title`, `links` and `error_message` are genuinely optional. -/
structure PageData where
  url : String
  title : Option String
  content : String
  status_code : Int
  links : Option (List String)
  same_domain_links : List String
  is_fetched : Bool
  error_message : Option String
deriving DecidableEq

/-! ## webcrawler.py : configuration, world and state -/

/-- The `WebCrawler` constructor arguments that drive the traversal. -/
structure CrawlConfig where
  start_url : String
  max_depth : Int
  max_time : Nat
  only_sub_links : Bool
  custom_depth_func : Option (String → Int)

/-- The external collaborators of one crawl run: robots.txt loading, and per
URL the fetch verdict (`WebPage.fetch_result.success`), the page record
(`WebPage.to_dict`, whose `same_domain_links` field is exactly
`page.get_same_domain_links(page.parse_result.links)`, the list the crawler
expands), and how long the fetch takes.  `setupClock` is the time already
spent before the first loop iteration. -/
structure CrawlWorld where
  baseUrl : String
  robotsOutcome : LoadOutcome
  fetchSuccess : String → Bool
  pageDict : String → PageData
  fetchDuration : String → Nat
  setupClock : Nat

/-- The mutable crawling state of `WebCrawler`.  `visited_urls` is a Python
set; `crawl_stack` is a Python list used as a stack, embedded with the head
as the top; `crawled_pages` is an insertion-ordered dict as an association
list; `clock` is the elapsed wall-clock time. -/
structure CrawlState where
  visited_urls : Finset String
  crawled_pages : List (String × PageData)
  crawl_stack : List (String × Int)
  blocked_urls : List String
  failed_urls : List String
  clock : Nat
  is_time_exceeded : Bool

/-- Observable actions of a run, for stating temporal properties: a fetch of
a URL at a depth, and an inter-request sleep, each stamped with the elapsed
clock at its start. -/
inductive CrawlEvent where
  | fetch (url : String) (depth : Int) (clock : Nat)
  | sleep (duration : Nat) (clock : Nat)
deriving DecidableEq

/-- Seed depth (webcrawler.py lines 76-79): the custom depth function on the
start URL, else 0. -/
def seedDepth (cfg : CrawlConfig) : Int :=
  match cfg.custom_depth_func with
  | some f => f cfg.start_url
  | none => 0

/-- Depth of a discovered child link (webcrawler.py lines 112-116): the
custom depth function on the link, else parent depth + 1. -/
def childDepth (cfg : CrawlConfig) (depth : Int) (link : String) : Int :=
  match cfg.custom_depth_func with
  | some f => f link
  | none => depth + 1

/-- The orchestrator's effective inter-request delay (webcrawler.py line 74):
`self.robots_parser.get_crawl_delay() or 1.0`.  Python `or` takes the right
operand whenever the left is falsy, i.e. `None` or the number 0. -/
def effectiveCrawlDelay (d : Option Nat) : Nat :=
  match d with
  | none => 1
  | some v => if v = 0 then 1 else v

/-- `WebCrawler._is_time_exceeded` (webcrawler.py lines 149-162) with
`start_time` already set: compares elapsed clock with `max_time` and latches
the `is_time_exceeded` flag when exceeded. -/
def isTimeExceeded (maxTime : Nat) (s : CrawlState) : Bool × CrawlState :=
  if maxTime ≤ s.clock then (true, { s with is_time_exceeded := true }) else (false, s)

/-- `WebCrawler._crawl_page` (webcrawler.py lines 125-147): add the URL to
the visited set, then fetch (advancing the clock); on success store the page
record, on failure append to `failed_urls`.  The returned Python boolean is
`w.fetchSuccess url`, available to the caller directly. -/
def crawl_page (w : CrawlWorld) (s : CrawlState) (url : String) : CrawlState :=
  let s1 := { s with
    visited_urls := insert url s.visited_urls
    clock := s.clock + w.fetchDuration url }
  if w.fetchSuccess url = true then
    { s1 with crawled_pages := s1.crawled_pages ++ [(url, w.pageDict url)] }
  else
    { s1 with failed_urls := s1.failed_urls ++ [url] }

/-- The child-expansion block (webcrawler.py lines 106-117): push each
same-domain link that is not yet visited, in reverse order of discovery.
Pushing the reversed list one by one onto the stack-top (list head) leaves
the unvisited children on the stack in their discovery order. -/
def pushChildren (cfg : CrawlConfig) (w : CrawlWorld) (url : String)
    (depth : Int) (s : CrawlState) : CrawlState :=
  let fresh := ((w.pageDict url).same_domain_links).filter
    (fun l => !decide (l ∈ s.visited_urls))
  { s with crawl_stack :=
      fresh.map (fun l => (l, childDepth cfg depth l)) ++ s.crawl_stack }

/-- The tail of a loop iteration (webcrawler.py lines 119-121): sleep for the
effective delay unless the delay is falsy or the time budget is already
exceeded (`_is_time_exceeded` is consulted, latching the flag). -/
def afterSleep (maxTime : Nat) (delay : Nat) (s : CrawlState)
    (evs : List CrawlEvent) : CrawlState × List CrawlEvent :=
  if delay ≠ 0 then
    let r := isTimeExceeded maxTime s
    if r.1 = true then (r.2, evs)
    else ({ r.2 with clock := r.2.clock + delay },
      evs ++ [CrawlEvent.sleep delay r.2.clock])
  else (s, evs)

/-- One loop iteration of `WebCrawler.crawl` (webcrawler.py lines 86-121)
after the pop: the already-visited / depth check, the sub-link scope check,
the robots gate, `_crawl_page`, child expansion and the crawl-delay sleep.
The popped entry is `(url, depth)`; `s.crawl_stack` is the remaining
stack. -/
def crawlIter (cfg : CrawlConfig) (w : CrawlWorld) (robots : RobotsTxtParser)
    (delay : Nat) (url : String) (depth : Int) (s : CrawlState) :
    CrawlState × List CrawlEvent :=
  if url ∈ s.visited_urls ∨ cfg.max_depth < depth then (s, [])
  else if cfg.only_sub_links && !(pyIn cfg.start_url url) then (s, [])
  else if robots.can_fetch url = false then
    ({ s with
        blocked_urls := s.blocked_urls ++ [url]
        visited_urls := insert url s.visited_urls }, [])
  else
    let fetchEv := CrawlEvent.fetch url depth s.clock
    let s1 := crawl_page w s url
    let s2 :=
      if w.fetchSuccess url = true ∧ depth < cfg.max_depth then
        pushChildren cfg w url depth s1
      else s1
    afterSleep cfg.max_time delay s2 [fetchEv]

/-- The crawling loop of `WebCrawler.crawl` (webcrawler.py line 85):
`while self.crawl_stack and not self._is_time_exceeded()`.  Python gives no
termination guarantee, so the loop is run on explicit fuel; every property
proved below holds for every fuel, in particular for any terminating run. -/
def crawlLoop (cfg : CrawlConfig) (w : CrawlWorld) (robots : RobotsTxtParser)
    (delay : Nat) : Nat → CrawlState → CrawlState × List CrawlEvent
  | 0, s => (s, [])
  | fuel + 1, s =>
    match s.crawl_stack with
    | [] => (s, [])
    | (url, depth) :: rest =>
      let r := isTimeExceeded cfg.max_time s
      if r.1 = true then (r.2, [])
      else
        let step := crawlIter cfg w robots delay url depth
          { r.2 with crawl_stack := rest }
        let next := crawlLoop cfg w robots delay fuel step.1
        (next.1, step.2 ++ next.2)

/-- The robots parser state the crawler works with: constructed for the base
URL with the default user agent and loaded once at the start of `crawl`
(webcrawler.py lines 48 and 73). -/
def loadedRobots (w : CrawlWorld) : RobotsTxtParser :=
  (load_robots_txt w.robotsOutcome (RobotsTxtParser.init w.baseUrl "*")).1

/-- The initial crawl state (webcrawler.py lines 50-57 and 82): everything
empty, the seed URL on the stack at its starting depth. -/
def initState (cfg : CrawlConfig) (w : CrawlWorld) : CrawlState :=
  { visited_urls := ∅
    crawled_pages := []
    crawl_stack := [(cfg.start_url, seedDepth cfg)]
    blocked_urls := []
    failed_urls := []
    clock := w.setupClock
    is_time_exceeded := false }

/-- `WebCrawler.crawl` (webcrawler.py lines 59-123) up to result generation:
load robots.txt, compute the effective delay, run the loop from the seed. -/
def crawl (cfg : CrawlConfig) (w : CrawlWorld) (fuel : Nat) :
    CrawlState × List CrawlEvent :=
  crawlLoop cfg w (loadedRobots w)
    (effectiveCrawlDelay (loadedRobots w).get_crawl_delay)
    fuel (initState cfg w)

/-! ## webcrawler.py : result generation and filtering -/

/-- The `crawl_metadata` dictionary of `WebCrawler._generate_results`
(webcrawler.py lines 168-180), with the two keys that `filter_content` may
add afterwards modelled as optional fields that start out absent. -/
structure CrawlMetadata where
  start_url : String
  max_depth : Int
  max_time : Nat
  total_time : Nat
  pages_crawled : Nat
  urls_visited : Nat
  urls_blocked : Nat
  urls_failed : Nat
  time_exceeded : Bool
  crawl_delay_used : Option Nat
  filter_keyword : Option String
  filtered_pages : Option Nat
deriving DecidableEq

/-- The results dictionary of `WebCrawler._generate_results`
(webcrawler.py lines 164-193). -/
structure CrawlResults where
  crawl_metadata : CrawlMetadata
  pages : List (String × PageData)
  blocked_urls : List String
  failed_urls : List String
deriving DecidableEq

/-- `WebCrawler._generate_results` (webcrawler.py lines 164-193). -/
def generate_results (cfg : CrawlConfig) (robots : RobotsTxtParser)
    (s : CrawlState) : CrawlResults :=
  { crawl_metadata :=
      { start_url := cfg.start_url
        max_depth := cfg.max_depth
        max_time := cfg.max_time
        total_time := s.clock
        pages_crawled := s.crawled_pages.length
        urls_visited := s.visited_urls.card
        urls_blocked := s.blocked_urls.length
        urls_failed := s.failed_urls.length
        time_exceeded := s.is_time_exceeded
        crawl_delay_used := robots.get_crawl_delay
        filter_keyword := none
        filtered_pages := none }
    pages := s.crawled_pages
    blocked_urls := s.blocked_urls
    failed_urls := s.failed_urls }

/-- A full `WebCrawler.crawl` call: run the loop and generate the report. -/
def crawlResults (cfg : CrawlConfig) (w : CrawlWorld) (fuel : Nat) :
    CrawlResults :=
  generate_results cfg (loadedRobots w) (crawl cfg w fuel).1

/-- The page loop of `WebCrawler.filter_content` (webcrawler.py
lines 224-230).  Python evaluates `page_data["title"].lower()` on every
page; when the stored title is `None` this raises `AttributeError`, which
propagates out of `filter_content`, so the loop is embedded in `Except`. -/
def filterPages (kw : String) :
    List (String × PageData) → Except String (List (String × PageData))
  | [] => .ok []
  | (url, p) :: rest =>
    match p.title with
    | none => .error "AttributeError: NoneType has no attribute lower"
    | some t =>
      match filterPages kw rest with
      | .error e => .error e
      | .ok r =>
        if pyIn kw p.content.toLower || pyIn kw t.toLower then
          .ok ((url, p) :: r)
        else .ok r

/-- `WebCrawler.filter_content` (webcrawler.py lines 212-236): copy the
metadata, keep the pages whose lowered content or title contains the lowered
keyword, pass blocked and failed lists through, record the keyword and the
matched count in the metadata. -/
def filter_content (results : CrawlResults) (keyword : String) :
    Except String CrawlResults :=
  match filterPages keyword.toLower results.pages with
  | .error e => .error e
  | .ok matched =>
    .ok { crawl_metadata :=
            { results.crawl_metadata with
                filter_keyword := some keyword
                filtered_pages := some matched.length }
          pages := matched
          blocked_urls := results.blocked_urls
          failed_urls := results.failed_urls }

/-! ## Derived observations used by the theorems -/

/-- The URLs of the fetch events of a trace, in order. -/
def fetchedUrls (tr : List CrawlEvent) : List String :=
  tr.filterMap (fun e => match e with
    | .fetch u _ _ => some u
    | .sleep _ _ => none)

/-- Every fetch and every sleep of the trace started strictly before the
time budget ran out. -/
def budgetOk (maxTime : Nat) (tr : List CrawlEvent) : Bool :=
  tr.all (fun e => match e with
    | .fetch _ _ c => decide (c < maxTime)
    | .sleep _ c => decide (c < maxTime))

/-- Every sleep of the trace slept for exactly `d`. -/
def sleepsHaveDelay (d : Nat) (tr : List CrawlEvent) : Bool :=
  tr.all (fun e => match e with
    | .fetch _ _ _ => true
    | .sleep d2 _ => d2 == d)

/-- Boolean list disjointness. -/
def listDisjoint (l1 l2 : List String) : Bool :=
  l1.all (fun u => !(l2.contains u))

/-- The nonnegativity assumption on the injectable depth-classification
function: trivially satisfied by the default depth behaviour, and by any
custom function that classifies into nonnegative depths (as the repository
function `depth_by_hs_code` does). -/
def depthFuncNonneg (cfg : CrawlConfig) : Prop :=
  match cfg.custom_depth_func with
  | some f => ∀ u, 0 ≤ f u
  | none => True

/-- The direct description of the keyword match of `filter_content`: the
lowered keyword occurs in the lowered content or the lowered title. -/
def matchedPages (r : CrawlResults) (keyword : String) :
    List (String × PageData) :=
  r.pages.filter (fun p =>
    pyIn keyword.toLower p.2.content.toLower ||
    pyIn keyword.toLower ((p.2.title.getD "").toLower))

/-! ## Helper lemmas: single constructs -/

lemma isTimeExceeded_pos {mt : Nat} {s : CrawlState} (h : mt ≤ s.clock) :
    isTimeExceeded mt s = (true, { s with is_time_exceeded := true }) := by
  simp [isTimeExceeded, h]

lemma isTimeExceeded_neg {mt : Nat} {s : CrawlState} (h : ¬ mt ≤ s.clock) :
    isTimeExceeded mt s = (false, s) := by
  simp [isTimeExceeded, h]

lemma crawl_page_visited (w : CrawlWorld) (s : CrawlState) (url : String) :
    (crawl_page w s url).visited_urls = insert url s.visited_urls := by
  simp only [crawl_page]
  split <;> rfl

lemma crawl_page_clock (w : CrawlWorld) (s : CrawlState) (url : String) :
    (crawl_page w s url).clock = s.clock + w.fetchDuration url := by
  simp only [crawl_page]
  split <;> rfl

lemma crawl_page_blocked (w : CrawlWorld) (s : CrawlState) (url : String) :
    (crawl_page w s url).blocked_urls = s.blocked_urls := by
  simp only [crawl_page]
  split <;> rfl

lemma crawl_page_stack (w : CrawlWorld) (s : CrawlState) (url : String) :
    (crawl_page w s url).crawl_stack = s.crawl_stack := by
  simp only [crawl_page]
  split <;> rfl

lemma crawl_page_main (w : CrawlWorld) (s : CrawlState) (url : String) :
    (w.fetchSuccess url = true ∧
      (crawl_page w s url).crawled_pages = s.crawled_pages ++ [(url, w.pageDict url)] ∧
      (crawl_page w s url).failed_urls = s.failed_urls) ∨
    (w.fetchSuccess url = false ∧
      (crawl_page w s url).crawled_pages = s.crawled_pages ∧
      (crawl_page w s url).failed_urls = s.failed_urls ++ [url]) := by
  by_cases h : w.fetchSuccess url = true
  · exact Or.inl ⟨h, by simp [crawl_page, h], by simp [crawl_page, h]⟩
  · have h2 : w.fetchSuccess url = false := by
      revert h
      cases w.fetchSuccess url <;> simp
    exact Or.inr ⟨h2, by simp [crawl_page, h2], by simp [crawl_page, h2]⟩

lemma pushChildren_visited (cfg : CrawlConfig) (w : CrawlWorld) (url : String)
    (depth : Int) (s : CrawlState) :
    (pushChildren cfg w url depth s).visited_urls = s.visited_urls := rfl

lemma pushChildren_blocked (cfg : CrawlConfig) (w : CrawlWorld) (url : String)
    (depth : Int) (s : CrawlState) :
    (pushChildren cfg w url depth s).blocked_urls = s.blocked_urls := rfl

lemma pushChildren_pages (cfg : CrawlConfig) (w : CrawlWorld) (url : String)
    (depth : Int) (s : CrawlState) :
    (pushChildren cfg w url depth s).crawled_pages = s.crawled_pages := rfl

lemma pushChildren_failed (cfg : CrawlConfig) (w : CrawlWorld) (url : String)
    (depth : Int) (s : CrawlState) :
    (pushChildren cfg w url depth s).failed_urls = s.failed_urls := rfl

lemma pushChildren_clock (cfg : CrawlConfig) (w : CrawlWorld) (url : String)
    (depth : Int) (s : CrawlState) :
    (pushChildren cfg w url depth s).clock = s.clock := rfl

lemma afterSleep_spec (mt d : Nat) (s : CrawlState) (evs : List CrawlEvent) :
    afterSleep mt d s evs = (s, evs) ∨
    afterSleep mt d s evs = ({ s with is_time_exceeded := true }, evs) ∨
    (afterSleep mt d s evs =
      ({ s with clock := s.clock + d }, evs ++ [CrawlEvent.sleep d s.clock]) ∧
      s.clock < mt) := by
  by_cases hd : d = 0
  · exact Or.inl (by simp [afterSleep, hd])
  · by_cases ht : mt ≤ s.clock
    · exact Or.inr (Or.inl (by simp [afterSleep, hd, isTimeExceeded_pos ht]))
    · refine Or.inr (Or.inr ⟨by simp [afterSleep, hd, isTimeExceeded_neg ht], by omega⟩)

lemma afterSleep_visited (mt d : Nat) (s : CrawlState) (evs : List CrawlEvent) :
    ((afterSleep mt d s evs).1).visited_urls = s.visited_urls := by
  rcases afterSleep_spec mt d s evs with h | h | ⟨h, _⟩ <;> simp [h]

lemma afterSleep_stack (mt d : Nat) (s : CrawlState) (evs : List CrawlEvent) :
    ((afterSleep mt d s evs).1).crawl_stack = s.crawl_stack := by
  rcases afterSleep_spec mt d s evs with h | h | ⟨h, _⟩ <;> simp [h]

lemma afterSleep_pages (mt d : Nat) (s : CrawlState) (evs : List CrawlEvent) :
    ((afterSleep mt d s evs).1).crawled_pages = s.crawled_pages := by
  rcases afterSleep_spec mt d s evs with h | h | ⟨h, _⟩ <;> simp [h]

lemma afterSleep_blocked (mt d : Nat) (s : CrawlState) (evs : List CrawlEvent) :
    ((afterSleep mt d s evs).1).blocked_urls = s.blocked_urls := by
  rcases afterSleep_spec mt d s evs with h | h | ⟨h, _⟩ <;> simp [h]

lemma afterSleep_failed (mt d : Nat) (s : CrawlState) (evs : List CrawlEvent) :
    ((afterSleep mt d s evs).1).failed_urls = s.failed_urls := by
  rcases afterSleep_spec mt d s evs with h | h | ⟨h, _⟩ <;> simp [h]

lemma afterSleep_fetchedUrls (mt d : Nat) (s : CrawlState) (evs : List CrawlEvent) :
    fetchedUrls ((afterSleep mt d s evs).2) = fetchedUrls evs := by
  rcases afterSleep_spec mt d s evs with h | h | ⟨h, _⟩ <;>
    simp [h, fetchedUrls, List.filterMap_append]

lemma afterSleep_budget (mt d : Nat) (s : CrawlState) (evs : List CrawlEvent) :
    budgetOk mt ((afterSleep mt d s evs).2) = budgetOk mt evs := by
  rcases afterSleep_spec mt d s evs with h | h | ⟨h, hlt⟩
  · simp [h]
  · simp [h]
  · simp [h, budgetOk, List.all_append, hlt]

lemma afterSleep_sleeps (mt d : Nat) (s : CrawlState) (evs : List CrawlEvent) :
    sleepsHaveDelay d ((afterSleep mt d s evs).2) = sleepsHaveDelay d evs := by
  rcases afterSleep_spec mt d s evs with h | h | ⟨h, _⟩ <;>
    simp [h, sleepsHaveDelay, List.all_append]

/-! ## Helper lemmas: one loop iteration -/

lemma crawlIter_cases (cfg : CrawlConfig) (w : CrawlWorld)
    (robots : RobotsTxtParser) (delay : Nat) (url : String) (depth : Int)
    (s : CrawlState) :
    crawlIter cfg w robots delay url depth s = (s, []) ∨
    (crawlIter cfg w robots delay url depth s =
        ({ s with
            blocked_urls := s.blocked_urls ++ [url]
            visited_urls := insert url s.visited_urls }, []) ∧
      url ∉ s.visited_urls ∧ robots.can_fetch url = false) ∨
    (url ∉ s.visited_urls ∧ robots.can_fetch url = true ∧
      ∃ s2 : CrawlState,
        s2.visited_urls = insert url s.visited_urls ∧
        s2.blocked_urls = s.blocked_urls ∧
        s2.clock = s.clock + w.fetchDuration url ∧
        ((w.fetchSuccess url = true ∧
            s2.crawled_pages = s.crawled_pages ++ [(url, w.pageDict url)] ∧
            s2.failed_urls = s.failed_urls) ∨
          (w.fetchSuccess url = false ∧
            s2.crawled_pages = s.crawled_pages ∧
            s2.failed_urls = s.failed_urls ++ [url])) ∧
        (s2.crawl_stack = s.crawl_stack ∨ depth < cfg.max_depth) ∧
        crawlIter cfg w robots delay url depth s =
          afterSleep cfg.max_time delay s2 [CrawlEvent.fetch url depth s.clock]) := by
  by_cases h1 : url ∈ s.visited_urls ∨ cfg.max_depth < depth
  · exact Or.inl (by simp [crawlIter, h1])
  · by_cases h2 : (cfg.only_sub_links && !(pyIn cfg.start_url url)) = true
    · exact Or.inl (by simp [crawlIter, h1, h2])
    · have hurl : url ∉ s.visited_urls := (not_or.mp h1).1
      by_cases h3 : robots.can_fetch url = false
      · exact Or.inr (Or.inl ⟨by simp [crawlIter, h1, h2, h3], hurl, h3⟩)
      · have h3t : robots.can_fetch url = true := by
          revert h3
          cases robots.can_fetch url <;> simp
        refine Or.inr (Or.inr ⟨hurl, h3t, ?_⟩)
        by_cases h4 : w.fetchSuccess url = true ∧ depth < cfg.max_depth
        · refine ⟨pushChildren cfg w url depth (crawl_page w s url), ?_, ?_, ?_, ?_, ?_, ?_⟩
          · rw [pushChildren_visited, crawl_page_visited]
          · rw [pushChildren_blocked, crawl_page_blocked]
          · rw [pushChildren_clock, crawl_page_clock]
          · rw [pushChildren_pages, pushChildren_failed]
            exact crawl_page_main w s url
          · exact Or.inr h4.2
          · simp [crawlIter, h1, h2, h3, h4]
        · refine ⟨crawl_page w s url, crawl_page_visited w s url,
            crawl_page_blocked w s url, crawl_page_clock w s url,
            crawl_page_main w s url, Or.inl (crawl_page_stack w s url), ?_⟩
          simp [crawlIter, h1, h2, h3, h4]

lemma crawlIter_visited_mono (cfg : CrawlConfig) (w : CrawlWorld)
    (robots : RobotsTxtParser) (delay : Nat) (url : String) (depth : Int)
    (s : CrawlState) :
    s.visited_urls ⊆ (crawlIter cfg w robots delay url depth s).1.visited_urls := by
  rcases crawlIter_cases cfg w robots delay url depth s with
    h | ⟨h, _, _⟩ | ⟨_, _, s2, hv, _, _, _, _, heq⟩
  · simp [h]
  · simp [h]
  · rw [heq, afterSleep_visited, hv]
    exact Finset.subset_insert _ _

lemma crawlIter_fetch_trace (cfg : CrawlConfig) (w : CrawlWorld)
    (robots : RobotsTxtParser) (delay : Nat) (url : String) (depth : Int)
    (s : CrawlState) :
    (crawlIter cfg w robots delay url depth s).2 = [] ∨
    (fetchedUrls (crawlIter cfg w robots delay url depth s).2 = [url] ∧
      url ∉ s.visited_urls ∧ robots.can_fetch url = true ∧
      url ∈ (crawlIter cfg w robots delay url depth s).1.visited_urls) := by
  rcases crawlIter_cases cfg w robots delay url depth s with
    h | ⟨h, _, _⟩ | ⟨hurl, hcf, s2, hv, _, _, _, _, heq⟩
  · simp [h]
  · simp [h]
  · refine Or.inr ⟨?_, hurl, hcf, ?_⟩
    · rw [heq, afterSleep_fetchedUrls]
      rfl
    · rw [heq, afterSleep_visited, hv]
      exact Finset.mem_insert_self _ _

lemma crawlIter_budget (cfg : CrawlConfig) (w : CrawlWorld)
    (robots : RobotsTxtParser) (delay : Nat) (url : String) (depth : Int)
    (s : CrawlState) (h : s.clock < cfg.max_time) :
    budgetOk cfg.max_time (crawlIter cfg w robots delay url depth s).2 = true := by
  rcases crawlIter_cases cfg w robots delay url depth s with
    h1 | ⟨h1, _, _⟩ | ⟨_, _, s2, _, _, _, _, _, heq⟩
  · simp [h1, budgetOk]
  · simp [h1, budgetOk]
  · rw [heq, afterSleep_budget]
    simp [budgetOk, h]

lemma crawlIter_sleeps (cfg : CrawlConfig) (w : CrawlWorld)
    (robots : RobotsTxtParser) (delay : Nat) (url : String) (depth : Int)
    (s : CrawlState) :
    sleepsHaveDelay delay (crawlIter cfg w robots delay url depth s).2 = true := by
  rcases crawlIter_cases cfg w robots delay url depth s with
    h1 | ⟨h1, _, _⟩ | ⟨_, _, s2, _, _, _, _, _, heq⟩
  · simp [h1, sleepsHaveDelay]
  · simp [h1, sleepsHaveDelay]
  · rw [heq, afterSleep_sleeps]
    simp [sleepsHaveDelay]

/-! ## Helper lemmas: the loop -/

lemma crawlLoop_zero (cfg : CrawlConfig) (w : CrawlWorld)
    (robots : RobotsTxtParser) (delay : Nat) (s : CrawlState) :
    crawlLoop cfg w robots delay 0 s = (s, []) := rfl

lemma crawlLoop_nil (cfg : CrawlConfig) (w : CrawlWorld)
    (robots : RobotsTxtParser) (delay : Nat) (fuel : Nat) (s : CrawlState)
    (h : s.crawl_stack = []) :
    crawlLoop cfg w robots delay (fuel + 1) s = (s, []) := by
  simp [crawlLoop, h]

lemma crawlLoop_exceeded (cfg : CrawlConfig) (w : CrawlWorld)
    (robots : RobotsTxtParser) (delay : Nat) (fuel : Nat) (s : CrawlState)
    (url : String) (depth : Int) (rest : List (String × Int))
    (h : s.crawl_stack = (url, depth) :: rest) (hex : cfg.max_time ≤ s.clock) :
    crawlLoop cfg w robots delay (fuel + 1) s =
      ({ s with is_time_exceeded := true }, []) := by
  simp [crawlLoop, h, isTimeExceeded_pos hex]

lemma crawlLoop_step (cfg : CrawlConfig) (w : CrawlWorld)
    (robots : RobotsTxtParser) (delay : Nat) (fuel : Nat) (s : CrawlState)
    (url : String) (depth : Int) (rest : List (String × Int))
    (h : s.crawl_stack = (url, depth) :: rest) (hex : ¬ cfg.max_time ≤ s.clock) :
    crawlLoop cfg w robots delay (fuel + 1) s =
      ((crawlLoop cfg w robots delay fuel
          (crawlIter cfg w robots delay url depth { s with crawl_stack := rest }).1).1,
        (crawlIter cfg w robots delay url depth { s with crawl_stack := rest }).2 ++
        (crawlLoop cfg w robots delay fuel
          (crawlIter cfg w robots delay url depth { s with crawl_stack := rest }).1).2) := by
  simp [crawlLoop, h, isTimeExceeded_neg hex]

lemma fetchedUrls_append (a b : List CrawlEvent) :
    fetchedUrls (a ++ b) = fetchedUrls a ++ fetchedUrls b :=
  List.filterMap_append a b _

lemma budgetOk_append (mt : Nat) (a b : List CrawlEvent) :
    budgetOk mt (a ++ b) = (budgetOk mt a && budgetOk mt b) :=
  List.all_append

lemma sleepsHaveDelay_append (d : Nat) (a b : List CrawlEvent) :
    sleepsHaveDelay d (a ++ b) = (sleepsHaveDelay d a && sleepsHaveDelay d b) :=
  List.all_append

lemma crawlLoop_visited_mono (cfg : CrawlConfig) (w : CrawlWorld)
    (robots : RobotsTxtParser) (delay : Nat) :
    ∀ (fuel : Nat) (s : CrawlState),
      s.visited_urls ⊆ (crawlLoop cfg w robots delay fuel s).1.visited_urls := by
  intro fuel
  induction fuel with
  | zero =>
    intro s
    exact Finset.Subset.refl _
  | succ n ih =>
    intro s
    rcases hst : s.crawl_stack with _ | ⟨⟨url, depth⟩, rest⟩
    · rw [crawlLoop_nil cfg w robots delay n s hst]
    · by_cases hex : cfg.max_time ≤ s.clock
      · rw [crawlLoop_exceeded cfg w robots delay n s url depth rest hst hex]
      · rw [crawlLoop_step cfg w robots delay n s url depth rest hst hex]
        exact Finset.Subset.trans
          (crawlIter_visited_mono cfg w robots delay url depth
            { s with crawl_stack := rest })
          (ih _)

lemma crawlLoop_not_fetched (cfg : CrawlConfig) (w : CrawlWorld)
    (robots : RobotsTxtParser) (delay : Nat) :
    ∀ (fuel : Nat) (s : CrawlState) (u : String), u ∈ s.visited_urls →
      u ∉ fetchedUrls (crawlLoop cfg w robots delay fuel s).2 := by
  intro fuel
  induction fuel with
  | zero =>
    intro s u _
    simp [crawlLoop_zero, fetchedUrls]
  | succ n ih =>
    intro s u hu
    rcases hst : s.crawl_stack with _ | ⟨⟨url, depth⟩, rest⟩
    · rw [crawlLoop_nil cfg w robots delay n s hst]
      simp [fetchedUrls]
    · by_cases hex : cfg.max_time ≤ s.clock
      · rw [crawlLoop_exceeded cfg w robots delay n s url depth rest hst hex]
        simp [fetchedUrls]
      · rw [crawlLoop_step cfg w robots delay n s url depth rest hst hex,
          fetchedUrls_append, List.mem_append]
        refine not_or.mpr ⟨?_, ?_⟩
        · rcases crawlIter_fetch_trace cfg w robots delay url depth
            { s with crawl_stack := rest } with h | ⟨hf, hnv, _, _⟩
          · rw [h]
            simp [fetchedUrls]
          · rw [hf]
            simp only [List.mem_singleton]
            intro heq
            exact hnv (heq ▸ hu)
        · exact ih _ u
            (crawlIter_visited_mono cfg w robots delay url depth
              { s with crawl_stack := rest } hu)

lemma crawlLoop_fetched_nodup (cfg : CrawlConfig) (w : CrawlWorld)
    (robots : RobotsTxtParser) (delay : Nat) :
    ∀ (fuel : Nat) (s : CrawlState),
      (fetchedUrls (crawlLoop cfg w robots delay fuel s).2).Nodup := by
  intro fuel
  induction fuel with
  | zero =>
    intro s
    simp [crawlLoop_zero, fetchedUrls]
  | succ n ih =>
    intro s
    rcases hst : s.crawl_stack with _ | ⟨⟨url, depth⟩, rest⟩
    · rw [crawlLoop_nil cfg w robots delay n s hst]
      simp [fetchedUrls]
    · by_cases hex : cfg.max_time ≤ s.clock
      · rw [crawlLoop_exceeded cfg w robots delay n s url depth rest hst hex]
        simp [fetchedUrls]
      · rw [crawlLoop_step cfg w robots delay n s url depth rest hst hex,
          fetchedUrls_append]
        rcases crawlIter_fetch_trace cfg w robots delay url depth
          { s with crawl_stack := rest } with h | ⟨hf, _, _, hvis⟩
        · rw [h]
          simpa [fetchedUrls] using ih _
        · rw [hf]
          refine (List.nodup_singleton url).append (ih _) ?_
          intro a ha hb
          rw [List.mem_singleton] at ha
          subst ha
          exact crawlLoop_not_fetched cfg w robots delay n _ a hvis hb

lemma crawlLoop_fetched_visited (cfg : CrawlConfig) (w : CrawlWorld)
    (robots : RobotsTxtParser) (delay : Nat) :
    ∀ (fuel : Nat) (s : CrawlState) (u : String),
      u ∈ fetchedUrls (crawlLoop cfg w robots delay fuel s).2 →
      u ∈ (crawlLoop cfg w robots delay fuel s).1.visited_urls := by
  intro fuel
  induction fuel with
  | zero =>
    intro s u hu
    simp [crawlLoop_zero, fetchedUrls] at hu
  | succ n ih =>
    intro s u hu
    rcases hst : s.crawl_stack with _ | ⟨⟨url, depth⟩, rest⟩
    · rw [crawlLoop_nil cfg w robots delay n s hst] at hu
      simp [fetchedUrls] at hu
    · by_cases hex : cfg.max_time ≤ s.clock
      · rw [crawlLoop_exceeded cfg w robots delay n s url depth rest hst hex] at hu
        simp [fetchedUrls] at hu
      · rw [crawlLoop_step cfg w robots delay n s url depth rest hst hex] at hu ⊢
        rw [fetchedUrls_append, List.mem_append] at hu
        rcases hu with hu | hu
        · rcases crawlIter_fetch_trace cfg w robots delay url depth
            { s with crawl_stack := rest } with h | ⟨hf, _, _, hvis⟩
          · rw [h] at hu
            simp [fetchedUrls] at hu
          · rw [hf, List.mem_singleton] at hu
            subst hu
            exact crawlLoop_visited_mono cfg w robots delay n _ hvis
        · exact ih _ u hu

lemma crawlLoop_budget (cfg : CrawlConfig) (w : CrawlWorld)
    (robots : RobotsTxtParser) (delay : Nat) :
    ∀ (fuel : Nat) (s : CrawlState),
      budgetOk cfg.max_time (crawlLoop cfg w robots delay fuel s).2 = true := by
  intro fuel
  induction fuel with
  | zero =>
    intro s
    simp [crawlLoop_zero, budgetOk]
  | succ n ih =>
    intro s
    rcases hst : s.crawl_stack with _ | ⟨⟨url, depth⟩, rest⟩
    · rw [crawlLoop_nil cfg w robots delay n s hst]
      simp [budgetOk]
    · by_cases hex : cfg.max_time ≤ s.clock
      · rw [crawlLoop_exceeded cfg w robots delay n s url depth rest hst hex]
        simp [budgetOk]
      · rw [crawlLoop_step cfg w robots delay n s url depth rest hst hex,
          budgetOk_append]
        rw [crawlIter_budget cfg w robots delay url depth
          { s with crawl_stack := rest } (Nat.lt_of_not_le hex), ih _]
        rfl

lemma crawlLoop_sleeps (cfg : CrawlConfig) (w : CrawlWorld)
    (robots : RobotsTxtParser) (delay : Nat) :
    ∀ (fuel : Nat) (s : CrawlState),
      sleepsHaveDelay delay (crawlLoop cfg w robots delay fuel s).2 = true := by
  intro fuel
  induction fuel with
  | zero =>
    intro s
    simp [crawlLoop_zero, sleepsHaveDelay]
  | succ n ih =>
    intro s
    rcases hst : s.crawl_stack with _ | ⟨⟨url, depth⟩, rest⟩
    · rw [crawlLoop_nil cfg w robots delay n s hst]
      simp [sleepsHaveDelay]
    · by_cases hex : cfg.max_time ≤ s.clock
      · rw [crawlLoop_exceeded cfg w robots delay n s url depth rest hst hex]
        simp [sleepsHaveDelay]
      · rw [crawlLoop_step cfg w robots delay n s url depth rest hst hex,
          sleepsHaveDelay_append]
        rw [crawlIter_sleeps cfg w robots delay url depth
          { s with crawl_stack := rest }, ih _]
        rfl

/-! ## The bookkeeping invariant of the crawl state

Each URL enters the visited set at most once (its membership is checked
right before), and each such entry goes along with exactly one bookkeeping
record: a blocked entry, a stored page, or a failed entry.  This is the
tight accounting behind the counts in the final report. -/

structure CrawlInv (w : CrawlWorld) (robots : RobotsTxtParser)
    (s : CrawlState) : Prop where
  card_eq : s.visited_urls.card =
    s.crawled_pages.length + s.blocked_urls.length + s.failed_urls.length
  blocked_vis : ∀ u ∈ s.blocked_urls, u ∈ s.visited_urls
  failed_vis : ∀ u ∈ s.failed_urls, u ∈ s.visited_urls
  pages_vis : ∀ pr ∈ s.crawled_pages, pr.1 ∈ s.visited_urls
  blocked_nd : s.blocked_urls.Nodup
  failed_nd : s.failed_urls.Nodup
  pages_nd : (s.crawled_pages.map Prod.fst).Nodup
  blocked_pages : ∀ u ∈ s.blocked_urls, u ∉ s.crawled_pages.map Prod.fst
  failed_pages : ∀ u ∈ s.failed_urls, u ∉ s.crawled_pages.map Prod.fst
  blocked_failed : ∀ u ∈ s.blocked_urls, u ∉ s.failed_urls
  pages_success : ∀ pr ∈ s.crawled_pages, w.fetchSuccess pr.1 = true
  blocked_robots : ∀ u ∈ s.blocked_urls, robots.can_fetch u = false

lemma CrawlInv.of_eq {w : CrawlWorld} {robots : RobotsTxtParser}
    {s s2 : CrawlState} (h : CrawlInv w robots s)
    (hv : s2.visited_urls = s.visited_urls)
    (hp : s2.crawled_pages = s.crawled_pages)
    (hb : s2.blocked_urls = s.blocked_urls)
    (hf : s2.failed_urls = s.failed_urls) : CrawlInv w robots s2 := by
  refine ⟨?_, ?_, ?_, ?_, ?_, ?_, ?_, ?_, ?_, ?_, ?_, ?_⟩ <;>
    simp only [hv, hp, hb, hf]
  exacts [h.card_eq, h.blocked_vis, h.failed_vis, h.pages_vis, h.blocked_nd,
    h.failed_nd, h.pages_nd, h.blocked_pages, h.failed_pages,
    h.blocked_failed, h.pages_success, h.blocked_robots]

lemma crawlInv_blocked (w : CrawlWorld) (robots : RobotsTxtParser)
    {s : CrawlState} (url : String) (h : CrawlInv w robots s)
    (hurl : url ∉ s.visited_urls) (hcf : robots.can_fetch url = false) :
    CrawlInv w robots
      { s with
          blocked_urls := s.blocked_urls ++ [url]
          visited_urls := insert url s.visited_urls } := by
  constructor
  · show (insert url s.visited_urls).card =
      s.crawled_pages.length + (s.blocked_urls ++ [url]).length + s.failed_urls.length
    rw [Finset.card_insert_of_not_mem hurl, List.length_append, h.card_eq]
    simp
    omega
  · intro u hu
    rcases List.mem_append.mp hu with hu | hu
    · exact Finset.mem_insert_of_mem (h.blocked_vis u hu)
    · rw [List.mem_singleton] at hu
      subst hu
      exact Finset.mem_insert_self _ _
  · intro u hu
    exact Finset.mem_insert_of_mem (h.failed_vis u hu)
  · intro pr hpr
    exact Finset.mem_insert_of_mem (h.pages_vis pr hpr)
  · refine h.blocked_nd.append (List.nodup_singleton url) ?_
    intro a ha hb
    rw [List.mem_singleton] at hb
    subst hb
    exact hurl (h.blocked_vis a ha)
  · exact h.failed_nd
  · exact h.pages_nd
  · intro u hu
    rcases List.mem_append.mp hu with hu | hu
    · exact h.blocked_pages u hu
    · rw [List.mem_singleton] at hu
      subst hu
      intro hmem
      rcases List.mem_map.mp hmem with ⟨pr, hpr, hpr1⟩
      exact hurl (hpr1 ▸ h.pages_vis pr hpr)
  · exact h.failed_pages
  · intro u hu
    rcases List.mem_append.mp hu with hu | hu
    · exact h.blocked_failed u hu
    · rw [List.mem_singleton] at hu
      subst hu
      intro hmem
      exact hurl (h.failed_vis u hmem)
  · exact h.pages_success
  · intro u hu
    rcases List.mem_append.mp hu with hu | hu
    · exact h.blocked_robots u hu
    · rw [List.mem_singleton] at hu
      subst hu
      exact hcf

lemma crawlInv_fetch (w : CrawlWorld) (robots : RobotsTxtParser)
    {s s2 : CrawlState} (url : String) (h : CrawlInv w robots s)
    (hurl : url ∉ s.visited_urls)
    (hv : s2.visited_urls = insert url s.visited_urls)
    (hb : s2.blocked_urls = s.blocked_urls)
    (hmain : (w.fetchSuccess url = true ∧
        s2.crawled_pages = s.crawled_pages ++ [(url, w.pageDict url)] ∧
        s2.failed_urls = s.failed_urls) ∨
      (w.fetchSuccess url = false ∧
        s2.crawled_pages = s.crawled_pages ∧
        s2.failed_urls = s.failed_urls ++ [url])) :
    CrawlInv w robots s2 := by
  have hknew : url ∉ s.crawled_pages.map Prod.fst := by
    intro hmem
    rcases List.mem_map.mp hmem with ⟨pr, hpr, hpr1⟩
    exact hurl (hpr1 ▸ h.pages_vis pr hpr)
  rcases hmain with ⟨hsucc, hp, hf⟩ | ⟨hfail, hp, hf⟩
  · constructor
    · rw [hv, hp, hf, hb, Finset.card_insert_of_not_mem hurl, h.card_eq,
        List.length_append]
      simp
      omega
    · intro u hu
      rw [hb] at hu
      rw [hv]
      exact Finset.mem_insert_of_mem (h.blocked_vis u hu)
    · intro u hu
      rw [hf] at hu
      rw [hv]
      exact Finset.mem_insert_of_mem (h.failed_vis u hu)
    · intro pr hpr
      rw [hp, List.mem_append] at hpr
      rw [hv]
      rcases hpr with hpr | hpr
      · exact Finset.mem_insert_of_mem (h.pages_vis pr hpr)
      · rw [List.mem_singleton] at hpr
        subst hpr
        exact Finset.mem_insert_self _ _
    · rw [hb]
      exact h.blocked_nd
    · rw [hf]
      exact h.failed_nd
    · rw [hp, List.map_append]
      refine h.pages_nd.append (List.nodup_singleton url) ?_
      intro a ha hb2
      rw [List.map_singleton, List.mem_singleton] at hb2
      subst hb2
      exact hknew ha
    · intro u hu
      rw [hb] at hu
      rw [hp, List.map_append, List.map_singleton]
      intro hmem
      rcases List.mem_append.mp hmem with hmem | hmem
      · exact h.blocked_pages u hu hmem
      · rw [List.mem_singleton] at hmem
        subst hmem
        exact hurl (h.blocked_vis u hu)
    · intro u hu
      rw [hf] at hu
      rw [hp, List.map_append, List.map_singleton]
      intro hmem
      rcases List.mem_append.mp hmem with hmem | hmem
      · exact h.failed_pages u hu hmem
      · rw [List.mem_singleton] at hmem
        subst hmem
        exact hurl (h.failed_vis u hu)
    · intro u hu
      rw [hb] at hu
      rw [hf]
      exact h.blocked_failed u hu
    · intro pr hpr
      rw [hp, List.mem_append] at hpr
      rcases hpr with hpr | hpr
      · exact h.pages_success pr hpr
      · rw [List.mem_singleton] at hpr
        subst hpr
        exact hsucc
    · intro u hu
      rw [hb] at hu
      exact h.blocked_robots u hu
  · constructor
    · rw [hv, hp, hf, hb, Finset.card_insert_of_not_mem hurl, h.card_eq,
        List.length_append]
      simp
      omega
    · intro u hu
      rw [hb] at hu
      rw [hv]
      exact Finset.mem_insert_of_mem (h.blocked_vis u hu)
    · intro u hu
      rw [hf, List.mem_append] at hu
      rw [hv]
      rcases hu with hu | hu
      · exact Finset.mem_insert_of_mem (h.failed_vis u hu)
      · rw [List.mem_singleton] at hu
        subst hu
        exact Finset.mem_insert_self _ _
    · intro pr hpr
      rw [hp] at hpr
      rw [hv]
      exact Finset.mem_insert_of_mem (h.pages_vis pr hpr)
    · rw [hb]
      exact h.blocked_nd
    · rw [hf]
      refine h.failed_nd.append (List.nodup_singleton url) ?_
      intro a ha hb2
      rw [List.mem_singleton] at hb2
      subst hb2
      exact hurl (h.failed_vis a ha)
    · rw [hp]
      exact h.pages_nd
    · intro u hu
      rw [hb] at hu
      rw [hp]
      exact h.blocked_pages u hu
    · intro u hu
      rw [hf, List.mem_append] at hu
      rw [hp]
      rcases hu with hu | hu
      · exact h.failed_pages u hu
      · rw [List.mem_singleton] at hu
        subst hu
        exact hknew
    · intro u hu
      rw [hb] at hu
      rw [hf]
      intro hmem
      rcases List.mem_append.mp hmem with hmem | hmem
      · exact h.blocked_failed u hu hmem
      · rw [List.mem_singleton] at hmem
        subst hmem
        exact hurl (h.blocked_vis u hu)
    · intro pr hpr
      rw [hp] at hpr
      exact h.pages_success pr hpr
    · intro u hu
      rw [hb] at hu
      exact h.blocked_robots u hu

lemma crawlIter_inv (cfg : CrawlConfig) (w : CrawlWorld)
    (robots : RobotsTxtParser) (delay : Nat) (url : String) (depth : Int)
    (s : CrawlState) (h : CrawlInv w robots s) :
    CrawlInv w robots (crawlIter cfg w robots delay url depth s).1 := by
  rcases crawlIter_cases cfg w robots delay url depth s with
    h1 | ⟨h1, hurl, hcf⟩ | ⟨hurl, hcf, s2, hv, hb, _, hmain, _, heq⟩
  · rw [h1]
    exact h
  · rw [h1]
    exact crawlInv_blocked w robots url h hurl hcf
  · rw [heq]
    exact (crawlInv_fetch w robots url h hurl hv hb hmain).of_eq
      (afterSleep_visited _ _ _ _) (afterSleep_pages _ _ _ _)
      (afterSleep_blocked _ _ _ _) (afterSleep_failed _ _ _ _)

lemma crawlLoop_inv (cfg : CrawlConfig) (w : CrawlWorld)
    (robots : RobotsTxtParser) (delay : Nat) :
    ∀ (fuel : Nat) (s : CrawlState), CrawlInv w robots s →
      CrawlInv w robots (crawlLoop cfg w robots delay fuel s).1 := by
  intro fuel
  induction fuel with
  | zero =>
    intro s h
    exact h
  | succ n ih =>
    intro s h
    rcases hst : s.crawl_stack with _ | ⟨⟨url, depth⟩, rest⟩
    · rw [crawlLoop_nil cfg w robots delay n s hst]
      exact h
    · by_cases hex : cfg.max_time ≤ s.clock
      · rw [crawlLoop_exceeded cfg w robots delay n s url depth rest hst hex]
        exact h.of_eq rfl rfl rfl rfl
      · rw [crawlLoop_step cfg w robots delay n s url depth rest hst hex]
        exact ih _ (crawlIter_inv cfg w robots delay url depth
          { s with crawl_stack := rest } (h.of_eq rfl rfl rfl rfl))

lemma crawlInv_init (cfg : CrawlConfig) (w : CrawlWorld)
    (robots : RobotsTxtParser) : CrawlInv w robots (initState cfg w) := by
  constructor <;> simp [initState]

lemma crawlIter_stack_of_nonneg (cfg : CrawlConfig) (w : CrawlWorld)
    (robots : RobotsTxtParser) (delay : Nat) (url : String) (depth : Int)
    (s : CrawlState) (h0 : cfg.max_depth = 0) (hd : 0 ≤ depth) :
    (crawlIter cfg w robots delay url depth s).1.crawl_stack = s.crawl_stack := by
  rcases crawlIter_cases cfg w robots delay url depth s with
    h1 | ⟨h1, _, _⟩ | ⟨_, _, s2, _, _, _, _, hstk, heq⟩
  · rw [h1]
  · rw [h1]
  · rw [heq, afterSleep_stack]
    rcases hstk with hstk | hstk
    · exact hstk
    · rw [h0] at hstk
      omega

lemma crawlLoop_seed_only (cfg : CrawlConfig) (w : CrawlWorld)
    (robots : RobotsTxtParser) (delay : Nat) (h0 : cfg.max_depth = 0) :
    ∀ (fuel : Nat) (s : CrawlState),
      (∀ e ∈ s.crawl_stack, e.1 = cfg.start_url ∧ 0 ≤ e.2) →
      ∀ u ∈ fetchedUrls (crawlLoop cfg w robots delay fuel s).2,
        u = cfg.start_url := by
  intro fuel
  induction fuel with
  | zero =>
    intro s _ u hu
    simp [crawlLoop_zero, fetchedUrls] at hu
  | succ n ih =>
    intro s hinv u hu
    rcases hst : s.crawl_stack with _ | ⟨⟨url, depth⟩, rest⟩
    · rw [crawlLoop_nil cfg w robots delay n s hst] at hu
      simp [fetchedUrls] at hu
    · by_cases hex : cfg.max_time ≤ s.clock
      · rw [crawlLoop_exceeded cfg w robots delay n s url depth rest hst hex] at hu
        simp [fetchedUrls] at hu
      · have hpop : url = cfg.start_url ∧ 0 ≤ depth := by
          have := hinv (url, depth) (by rw [hst]; exact List.mem_cons_self _ _)
          exact this
        have hrest : ∀ e ∈ rest, e.1 = cfg.start_url ∧ 0 ≤ e.2 := by
          intro e he
          exact hinv e (by rw [hst]; exact List.mem_cons_of_mem _ he)
        rw [crawlLoop_step cfg w robots delay n s url depth rest hst hex,
          fetchedUrls_append, List.mem_append] at hu
        rcases hu with hu | hu
        · rcases crawlIter_fetch_trace cfg w robots delay url depth
            { s with crawl_stack := rest } with h | ⟨hf, _, _, _⟩
          · rw [h] at hu
            simp [fetchedUrls] at hu
          · rw [hf, List.mem_singleton] at hu
            rw [hu]
            exact hpop.1
        · refine ih _ ?_ u hu
          intro e he
          rw [crawlIter_stack_of_nonneg cfg w robots delay url depth
            { s with crawl_stack := rest } h0 hpop.2] at he
          exact hrest e he

lemma length_le_one_of_nodup_all_eq {l : List String} {a : String}
    (nd : l.Nodup) (h : ∀ u ∈ l, u = a) : l.length ≤ 1 := by
  cases l with
  | nil => simp
  | cons x t =>
    cases t with
    | nil => simp
    | cons y t2 =>
      exfalso
      rcases List.nodup_cons.mp nd with ⟨hx, _⟩
      have hxy : x = y := (h x (by simp)).trans (h y (by simp)).symm
      rw [hxy] at hx
      exact hx (List.mem_cons_self _ _)

lemma budget_zero_no_fetch :
    ∀ (tr : List CrawlEvent), budgetOk 0 tr = true → fetchedUrls tr = [] := by
  intro tr
  induction tr with
  | nil =>
    intro
    rfl
  | cons e t ih =>
    intro h
    rw [budgetOk, List.all_cons, Bool.and_eq_true] at h
    cases e with
    | fetch u d c =>
      exfalso
      have : c < 0 := of_decide_eq_true h.1
      omega
    | sleep d c =>
      show fetchedUrls t = []
      exact ih h.2

lemma crawlIter_fetch_allowed (cfg : CrawlConfig) (w : CrawlWorld)
    (robots : RobotsTxtParser) (delay : Nat) (url : String) (depth : Int)
    (s : CrawlState) (u : String)
    (hu : u ∈ fetchedUrls (crawlIter cfg w robots delay url depth s).2) :
    robots.can_fetch u = true := by
  rcases crawlIter_fetch_trace cfg w robots delay url depth s with h | ⟨hf, _, hcf, _⟩
  · rw [h] at hu
    simp [fetchedUrls] at hu
  · rw [hf, List.mem_singleton] at hu
    subst hu
    exact hcf

lemma crawlLoop_fetched_allowed (cfg : CrawlConfig) (w : CrawlWorld)
    (robots : RobotsTxtParser) (delay : Nat) :
    ∀ (fuel : Nat) (s : CrawlState) (u : String),
      u ∈ fetchedUrls (crawlLoop cfg w robots delay fuel s).2 →
      robots.can_fetch u = true := by
  intro fuel
  induction fuel with
  | zero =>
    intro s u hu
    simp [crawlLoop_zero, fetchedUrls] at hu
  | succ n ih =>
    intro s u hu
    rcases hst : s.crawl_stack with _ | ⟨⟨url, depth⟩, rest⟩
    · rw [crawlLoop_nil cfg w robots delay n s hst] at hu
      simp [fetchedUrls] at hu
    · by_cases hex : cfg.max_time ≤ s.clock
      · rw [crawlLoop_exceeded cfg w robots delay n s url depth rest hst hex] at hu
        simp [fetchedUrls] at hu
      · rw [crawlLoop_step cfg w robots delay n s url depth rest hst hex,
          fetchedUrls_append, List.mem_append] at hu
        rcases hu with hu | hu
        · exact crawlIter_fetch_allowed cfg w robots delay url depth _ u hu
        · exact ih _ u hu

lemma filterPages_ok (kw : String) :
    ∀ (ps : List (String × PageData)),
      (∀ p ∈ ps, (p.2).title.isSome = true) →
      filterPages kw ps = .ok (ps.filter (fun p =>
        pyIn kw p.2.content.toLower ||
        pyIn kw ((p.2.title.getD "").toLower))) := by
  intro ps
  induction ps with
  | nil =>
    intro
    rfl
  | cons hd t ih =>
    intro h
    obtain ⟨u, p⟩ := hd
    have htitle : p.title.isSome = true := h (u, p) (List.mem_cons_self _ _)
    rcases hsome : p.title with _ | t0
    · rw [hsome] at htitle
      simp at htitle
    · simp only [filterPages, hsome,
        ih (fun q hq => h q (List.mem_cons_of_mem _ hq)), List.filter_cons]
      by_cases hm : (pyIn kw p.content.toLower || pyIn kw t0.toLower) = true
      · simp [hm, hsome]
      · have hc : ¬(pyIn kw p.content.toLower = true ∨ pyIn kw t0.toLower = true) := by
          simpa [Bool.or_eq_true] using hm
        simp [hm, hsome, if_neg hc]

/-! ## The claims -/

/-- Claim C1: in every single-threaded run, no URL is fetched more than once
(the list of fetched URLs has no duplicate, so the fetch count per URL is at
most 1), and every fetched URL is in the visited set from its fetch on (it
is added before the fetch begins, and already-visited frontier entries are
skipped without fetching). -/
theorem crawl_fetches_each_url_at_most_once (cfg : CrawlConfig)
    (w : CrawlWorld) (fuel : Nat) :
    (fetchedUrls (crawl cfg w fuel).2).Nodup ∧
    (∀ url : String, List.count url (fetchedUrls (crawl cfg w fuel).2) ≤ 1) ∧
    (∀ url ∈ fetchedUrls (crawl cfg w fuel).2,
      url ∈ (crawl cfg w fuel).1.visited_urls) := by
  have hnd : (fetchedUrls (crawl cfg w fuel).2).Nodup :=
    crawlLoop_fetched_nodup cfg w (loadedRobots w)
      (effectiveCrawlDelay (loadedRobots w).get_crawl_delay) fuel
      (initState cfg w)
  refine ⟨hnd, fun url => List.nodup_iff_count_le_one.mp hnd url, ?_⟩
  intro url hu
  exact crawlLoop_fetched_visited cfg w (loadedRobots w)
    (effectiveCrawlDelay (loadedRobots w).get_crawl_delay) fuel
    (initState cfg w) url hu

/-- Claim C2: every fetch and every sleep of a run starts strictly before
the time budget has run out (the budget is checked at the top of each loop
iteration and again before each sleep); with a time budget of 0 seconds
nothing at all is fetched (at most the seed, and in fact not even it, since
elapsed time is at once >= 0) and the report's time_exceeded metadata field
is true. -/
theorem crawl_respects_time_budget (cfg : CrawlConfig) (w : CrawlWorld)
    (fuel : Nat) (hf : 1 ≤ fuel) :
    budgetOk cfg.max_time (crawl cfg w fuel).2 = true ∧
    (cfg.max_time = 0 →
      fetchedUrls (crawl cfg w fuel).2 = [] ∧
      (crawlResults cfg w fuel).crawl_metadata.time_exceeded = true) := by
  have hbud : budgetOk cfg.max_time (crawl cfg w fuel).2 = true :=
    crawlLoop_budget cfg w (loadedRobots w)
      (effectiveCrawlDelay (loadedRobots w).get_crawl_delay) fuel
      (initState cfg w)
  refine ⟨hbud, fun h0 => ⟨budget_zero_no_fetch _ (h0 ▸ hbud), ?_⟩⟩
  obtain ⟨n, rfl⟩ : ∃ n, fuel = n + 1 := ⟨fuel - 1, by omega⟩
  have hex : cfg.max_time ≤ (initState cfg w).clock := by
    rw [h0]
    exact Nat.zero_le _
  have hrun := crawlLoop_exceeded cfg w (loadedRobots w)
    (effectiveCrawlDelay (loadedRobots w).get_crawl_delay) n (initState cfg w)
    cfg.start_url (seedDepth cfg) [] rfl hex
  show (crawl cfg w (n + 1)).1.is_time_exceeded = true
  show (crawlLoop cfg w (loadedRobots w)
    (effectiveCrawlDelay (loadedRobots w).get_crawl_delay) (n + 1)
    (initState cfg w)).1.is_time_exceeded = true
  rw [hrun]

/-- Claim C4: the policy gate is fail-open: `load_robots_txt` is total (the
except branch returns False instead of raising), and after a failed load on
a fresh parser every `can_fetch` call answers true for every URL and
`get_crawl_delay` reports no delay.  Permissiveness of `can_fetch` after a
failed load holds from any prior parser state. -/
theorem robots_load_failure_is_permissive (p0 : RobotsTxtParser)
    (base ua url : String) :
    (load_robots_txt .failure p0).1.can_fetch url = true ∧
    (load_robots_txt .failure (RobotsTxtParser.init base ua)).1.get_crawl_delay
      = none ∧
    (load_robots_txt .failure p0).2 = false := by
  refine ⟨?_, rfl, rfl⟩
  simp [load_robots_txt, RobotsTxtParser.can_fetch]

/-- Claim C6: a URL in the blocked list never appears among the keys of the
crawled-pages map; a page record is stored only for URLs whose fetch
succeeded; and a blocked URL is never fetched at all (a URL the gate
disallows produces no fetch event in the whole run). -/
theorem blocked_urls_never_in_pages (cfg : CrawlConfig) (w : CrawlWorld)
    (fuel : Nat) :
    (∀ u ∈ (crawl cfg w fuel).1.blocked_urls,
      u ∉ ((crawl cfg w fuel).1.crawled_pages.map Prod.fst)) ∧
    (∀ pr ∈ (crawl cfg w fuel).1.crawled_pages,
      w.fetchSuccess pr.1 = true) ∧
    (∀ u ∈ (crawl cfg w fuel).1.blocked_urls,
      u ∉ fetchedUrls (crawl cfg w fuel).2) := by
  have hinv := crawlLoop_inv cfg w (loadedRobots w)
    (effectiveCrawlDelay (loadedRobots w).get_crawl_delay) fuel
    (initState cfg w) (crawlInv_init cfg w (loadedRobots w))
  refine ⟨hinv.blocked_pages, hinv.pages_success, ?_⟩
  intro u hu hfetch
  have hforbid := hinv.blocked_robots u hu
  have hallow := crawlLoop_fetched_allowed cfg w (loadedRobots w)
    (effectiveCrawlDelay (loadedRobots w).get_crawl_delay) fuel
    (initState cfg w) u hfetch
  rw [hforbid] at hallow
  exact Bool.false_ne_true hallow

/-- Claim C10: at the end of every run (for every fuel, hence after every
iteration prefix of a run) the visited set is exactly partitioned by
outcome: its cardinality equals pages + blocked + failed, the blocked and
failed lists and the page keys are duplicate-free, and the three are
pairwise disjoint.  The spec's relaxed accounting is tight because entries
skipped by the visited/depth/scope checks never enter the visited set. -/
theorem visited_partitioned_by_outcome (cfg : CrawlConfig) (w : CrawlWorld)
    (fuel : Nat) :
    (crawl cfg w fuel).1.visited_urls.card =
      (crawl cfg w fuel).1.crawled_pages.length +
      (crawl cfg w fuel).1.blocked_urls.length +
      (crawl cfg w fuel).1.failed_urls.length ∧
    (crawl cfg w fuel).1.blocked_urls.Nodup ∧
    (crawl cfg w fuel).1.failed_urls.Nodup ∧
    ((crawl cfg w fuel).1.crawled_pages.map Prod.fst).Nodup ∧
    (∀ u ∈ (crawl cfg w fuel).1.blocked_urls,
      u ∉ (crawl cfg w fuel).1.crawled_pages.map Prod.fst) ∧
    (∀ u ∈ (crawl cfg w fuel).1.failed_urls,
      u ∉ (crawl cfg w fuel).1.crawled_pages.map Prod.fst) ∧
    (∀ u ∈ (crawl cfg w fuel).1.blocked_urls,
      u ∉ (crawl cfg w fuel).1.failed_urls) := by
  have hinv := crawlLoop_inv cfg w (loadedRobots w)
    (effectiveCrawlDelay (loadedRobots w).get_crawl_delay) fuel
    (initState cfg w) (crawlInv_init cfg w (loadedRobots w))
  exact ⟨hinv.card_eq, hinv.blocked_nd, hinv.failed_nd, hinv.pages_nd,
    hinv.blocked_pages, hinv.failed_pages, hinv.blocked_failed⟩

/-- Claim C7 (amended): the effective inter-request delay used by the
orchestrator — the duration of every sleep in the trace — equals the
policy-declared crawl delay when the policy declares a nonzero one, and
1.0 second when the delay is absent OR declared as zero (Python `or`
treats the number 0 as falsy); the gate itself returns None when
robots.txt specifies no delay and never invents a default. -/
theorem effective_crawl_delay_amended (cfg : CrawlConfig) (w : CrawlWorld)
    (fuel : Nat) :
    ((loadedRobots w).get_crawl_delay = none →
      sleepsHaveDelay 1 (crawl cfg w fuel).2 = true) ∧
    (∀ d : Nat, (loadedRobots w).get_crawl_delay = some d → d ≠ 0 →
      sleepsHaveDelay d (crawl cfg w fuel).2 = true) ∧
    ((loadedRobots w).get_crawl_delay = some 0 →
      sleepsHaveDelay 1 (crawl cfg w fuel).2 = true) ∧
    (∀ f : String → Bool, ∀ base ua : String,
      (load_robots_txt (.success f none)
        (RobotsTxtParser.init base ua)).1.get_crawl_delay = none) := by
  refine ⟨?_, ?_, ?_, fun f base ua => rfl⟩
  · intro h
    show sleepsHaveDelay 1 (crawlLoop cfg w (loadedRobots w)
      (effectiveCrawlDelay (loadedRobots w).get_crawl_delay) fuel
      (initState cfg w)).2 = true
    rw [h]
    exact crawlLoop_sleeps cfg w (loadedRobots w) (effectiveCrawlDelay none)
      fuel (initState cfg w)
  · intro d hd hne
    show sleepsHaveDelay d (crawlLoop cfg w (loadedRobots w)
      (effectiveCrawlDelay (loadedRobots w).get_crawl_delay) fuel
      (initState cfg w)).2 = true
    rw [hd]
    have hdval : effectiveCrawlDelay (some d) = d := by
      simp [effectiveCrawlDelay, hne]
    rw [hdval]
    exact crawlLoop_sleeps cfg w (loadedRobots w) d fuel (initState cfg w)
  · intro h0
    show sleepsHaveDelay 1 (crawlLoop cfg w (loadedRobots w)
      (effectiveCrawlDelay (loadedRobots w).get_crawl_delay) fuel
      (initState cfg w)).2 = true
    rw [h0]
    exact crawlLoop_sleeps cfg w (loadedRobots w) (effectiveCrawlDelay (some 0))
      fuel (initState cfg w)

/-- A robots parser state whose successfully loaded policy declares a crawl
delay of 0 seconds (robots.txt line Crawl-delay: 0, which urllib parses to
the integer 0). -/
def zeroDelayRobots : RobotsTxtParser :=
  (load_robots_txt (.success (fun _ => true) (some 0))
    (RobotsTxtParser.init "https://example.test" "*")).1

/-- Counterexample to claim C7 as stated: here the policy declares a crawl
delay (namely 0), yet the orchestrator's effective delay is 1.0 rather than
the declared value, because Python `x or 1.0` falls through for x = 0. -/
theorem declared_zero_delay_counterexample :
    zeroDelayRobots.get_crawl_delay = some 0 ∧
    effectiveCrawlDelay zeroDelayRobots.get_crawl_delay = 1 ∧
    effectiveCrawlDelay zeroDelayRobots.get_crawl_delay ≠ 0 := by
  refine ⟨rfl, rfl, by decide⟩

/-- Claim C3: for a successfully fetched page below the depth bound, the
not-yet-visited same-domain children are pushed in reverse order of
discovery, so on the resulting stack (head = top) they sit in discovery
order in front of the old stack, and the first-discovered unvisited child
is the next entry popped. -/
theorem children_pushed_in_reverse_discovery_order
    (cfg : CrawlConfig) (w : CrawlWorld) (robots : RobotsTxtParser)
    (delay : Nat) (url : String) (depth : Int) (s : CrawlState)
    (h1 : url ∉ s.visited_urls) (h2 : ¬ cfg.max_depth < depth)
    (h3 : (cfg.only_sub_links && !(pyIn cfg.start_url url)) = false)
    (h4 : robots.can_fetch url = true)
    (h5 : w.fetchSuccess url = true) (h6 : depth < cfg.max_depth) :
    (crawlIter cfg w robots delay url depth s).1.crawl_stack =
      (((w.pageDict url).same_domain_links).filter
        (fun l => !decide (l ∈ insert url s.visited_urls))).map
        (fun l => (l, childDepth cfg depth l)) ++ s.crawl_stack ∧
    (∀ c cs,
      ((w.pageDict url).same_domain_links).filter
        (fun l => !decide (l ∈ insert url s.visited_urls)) = c :: cs →
      ((crawlIter cfg w robots delay url depth s).1.crawl_stack).head? =
        some (c, childDepth cfg depth c)) := by
  have hg1 : ¬ (url ∈ s.visited_urls ∨ cfg.max_depth < depth) :=
    not_or.mpr ⟨h1, h2⟩
  have key : crawlIter cfg w robots delay url depth s =
      afterSleep cfg.max_time delay
        (pushChildren cfg w url depth (crawl_page w s url))
        [CrawlEvent.fetch url depth s.clock] := by
    simp [crawlIter, hg1, h3, h4, h5, h6]
  have hstack : (crawlIter cfg w robots delay url depth s).1.crawl_stack =
      (((w.pageDict url).same_domain_links).filter
        (fun l => !decide (l ∈ insert url s.visited_urls))).map
        (fun l => (l, childDepth cfg depth l)) ++ s.crawl_stack := by
    rw [key, afterSleep_stack]
    show (pushChildren cfg w url depth (crawl_page w s url)).crawl_stack = _
    simp only [pushChildren, crawl_page_visited, crawl_page_stack]
  refine ⟨hstack, ?_⟩
  intro c cs hc
  rw [hstack, hc]
  simp

/-- Claim C5: with a depth budget of 0 (and a depth function that never
classifies a URL to a negative depth — true of the default and of the
repository's custom function), every fetch of the run is of the seed URL
and there is at most one fetch: children are pushed only when the parent's
depth is strictly below max_depth, which is impossible at max_depth = 0. -/
theorem max_depth_zero_fetches_only_seed (cfg : CrawlConfig) (w : CrawlWorld)
    (fuel : Nat) (h0 : cfg.max_depth = 0) (h1 : depthFuncNonneg cfg) :
    (∀ u ∈ fetchedUrls (crawl cfg w fuel).2, u = cfg.start_url) ∧
    (fetchedUrls (crawl cfg w fuel).2).length ≤ 1 := by
  have hseed : ∀ e ∈ (initState cfg w).crawl_stack,
      e.1 = cfg.start_url ∧ 0 ≤ e.2 := by
    intro e he
    have he2 : e = (cfg.start_url, seedDepth cfg) := by
      simpa [initState] using he
    subst he2
    refine ⟨rfl, ?_⟩
    show (0 : Int) ≤ seedDepth cfg
    rcases hcd : cfg.custom_depth_func with _ | f
    · simp [seedDepth, hcd]
    · have hval : seedDepth cfg = f cfg.start_url := by
        simp [seedDepth, hcd]
      have h1f : ∀ u, 0 ≤ f u := by
        simpa [depthFuncNonneg, hcd] using h1
      rw [hval]
      exact h1f _
  have hall := crawlLoop_seed_only cfg w (loadedRobots w)
    (effectiveCrawlDelay (loadedRobots w).get_crawl_delay) h0 fuel
    (initState cfg w) hseed
  exact ⟨hall, length_le_one_of_nodup_all_eq
    (crawlLoop_fetched_nodup cfg w (loadedRobots w)
      (effectiveCrawlDelay (loadedRobots w).get_crawl_delay) fuel
      (initState cfg w)) hall⟩

/-- Claim C8 (amended): for every report all of whose stored pages carry an
actual (non-None) title — which is the case whenever the content selector
matched on every fetched page — `filter_content` returns a new report whose
pages are exactly those whose lowered title or content contains the lowered
keyword, whose blocked and failed lists are unchanged, and whose metadata
carries the keyword and the matched count; zero matches yield an empty pages
map and count 0, not an error.  (On a report containing a None-title page
the Python code instead raises AttributeError; see the counterexample.) -/
theorem filter_content_amended (r : CrawlResults) (keyword : String)
    (h : r.pages.all (fun p => p.2.title.isSome) = true) :
    filter_content r keyword = .ok
      { crawl_metadata :=
          { r.crawl_metadata with
              filter_keyword := some keyword
              filtered_pages := some (matchedPages r keyword).length }
        pages := matchedPages r keyword
        blocked_urls := r.blocked_urls
        failed_urls := r.failed_urls } := by
  have hall : ∀ p ∈ r.pages, (p.2).title.isSome = true :=
    List.all_eq_true.mp h
  have hok := filterPages_ok keyword.toLower r.pages hall
  simp only [filter_content, hok, matchedPages]

/-- A page record whose `title` is None, as `WebPage.to_dict` produces when
the content selector finds no region in a successfully fetched page. -/
def noneTitlePage : PageData :=
  { url := "https://e.test/p"
    title := none
    content := "hello world"
    status_code := 200
    links := some []
    same_domain_links := []
    is_fetched := true
    error_message := none }

def c8meta : CrawlMetadata :=
  { start_url := "https://e.test"
    max_depth := 2
    max_time := 60
    total_time := 3
    pages_crawled := 1
    urls_visited := 3
    urls_blocked := 1
    urls_failed := 1
    time_exceeded := false
    crawl_delay_used := none
    filter_keyword := none
    filtered_pages := none }

def c8report : CrawlResults :=
  { crawl_metadata := c8meta
    pages := [("https://e.test/p", noneTitlePage)]
    blocked_urls := ["https://e.test/blocked"]
    failed_urls := ["https://e.test/failed"] }

/-- Counterexample to claim C8 as stated: on this report — producible by a
run in which the selector matched nothing on a successfully fetched page, so
the stored title is None — `filter_content` does not return a filtered
report at all: `page_data["title"].lower()` raises AttributeError. -/
theorem filter_content_none_title_counterexample :
    filter_content c8report "hello" =
      .error "AttributeError: NoneType has no attribute lower" := rfl

/-- Claim C9: when the content selector finds no matchable region in a
fetched page, the parse result is an empty page, not a failure: content is
the empty string, links and title are None (so the same-domain link list is
empty), and `_crawl_page` on a fetch-successful URL records no failure and
stores the page record. -/
theorem empty_selection_parses_empty_not_failed
    (uj : String → String → String) (fmt origUrl : String)
    (netloc : String → String) (pageUrl : String)
    (w : CrawlWorld) (s : CrawlState) (url : String)
    (h : w.fetchSuccess url = true) :
    WebPageParser.parse uj fmt none origUrl =
      { content := "", links := none, title := none } ∧
    get_same_domain_links netloc pageUrl none = [] ∧
    (crawl_page w s url).failed_urls = s.failed_urls ∧
    url ∈ ((crawl_page w s url).crawled_pages.map Prod.fst) := by
  refine ⟨rfl, rfl, ?_, ?_⟩
  · simp [crawl_page, h]
  · simp [crawl_page, h]

/-! ## Concrete instances used by the witnesses -/

def witnessPage (u : String) (ls : List String) : PageData :=
  { url := u
    title := some "Title"
    content := "hello content"
    status_code := 200
    links := some ls
    same_domain_links := ls
    is_fetched := true
    error_message := none }

def witnessWorld : CrawlWorld :=
  { baseUrl := "https://s"
    robotsOutcome := .failure
    fetchSuccess := fun _ => true
    pageDict := fun u =>
      if u == "https://s/a" then witnessPage u ["https://s/b", "https://s/c"]
      else witnessPage u []
    fetchDuration := fun _ => 1
    setupClock := 0 }

def witnessCfgT0 : CrawlConfig :=
  { start_url := "https://s/a"
    max_depth := 2
    max_time := 0
    only_sub_links := false
    custom_depth_func := none }

def witnessCfgD0 : CrawlConfig :=
  { start_url := "https://s/a"
    max_depth := 0
    max_time := 100
    only_sub_links := false
    custom_depth_func := none }

def witnessCfg : CrawlConfig :=
  { start_url := "https://s/a"
    max_depth := 2
    max_time := 100
    only_sub_links := false
    custom_depth_func := none }

def witnessRobots : RobotsTxtParser := RobotsTxtParser.init "https://s" "*"

def witnessState : CrawlState :=
  { visited_urls := ∅
    crawled_pages := []
    crawl_stack := []
    blocked_urls := []
    failed_urls := []
    clock := 0
    is_time_exceeded := false }

/-- Witness for claim C2 at a concrete zero-budget run. -/
theorem crawl_respects_time_budget_witness :
    1 ≤ 2 ∧
    (budgetOk witnessCfgT0.max_time (crawl witnessCfgT0 witnessWorld 2).2 = true ∧
      fetchedUrls (crawl witnessCfgT0 witnessWorld 2).2 = [] ∧
      (crawlResults witnessCfgT0 witnessWorld 2).crawl_metadata.time_exceeded
        = true) := by
  have h := crawl_respects_time_budget witnessCfgT0 witnessWorld 2 (by decide)
  exact ⟨by decide, h.1, (h.2 rfl).1, (h.2 rfl).2⟩

/-- Witness for claim C3 at a concrete page with children b, c. -/
theorem children_pushed_in_reverse_discovery_order_witness :
    ("https://s/a" ∉ witnessState.visited_urls) ∧
    (¬ witnessCfg.max_depth < (0 : Int)) ∧
    ((witnessCfg.only_sub_links && !(pyIn witnessCfg.start_url "https://s/a"))
      = false) ∧
    witnessRobots.can_fetch "https://s/a" = true ∧
    witnessWorld.fetchSuccess "https://s/a" = true ∧
    ((0 : Int) < witnessCfg.max_depth) ∧
    (crawlIter witnessCfg witnessWorld witnessRobots 1 "https://s/a" 0
        witnessState).1.crawl_stack =
      (((witnessWorld.pageDict "https://s/a").same_domain_links).filter
        (fun l => !decide (l ∈ insert "https://s/a"
          witnessState.visited_urls))).map
        (fun l => (l, childDepth witnessCfg 0 l)) ++
        witnessState.crawl_stack := by
  refine ⟨by decide, by decide, rfl, rfl, rfl, by decide, ?_⟩
  exact (children_pushed_in_reverse_discovery_order witnessCfg witnessWorld
    witnessRobots 1 "https://s/a" 0 witnessState (by decide) (by decide)
    rfl rfl rfl (by decide)).1

/-- Witness for claim C5 at a concrete zero-depth run. -/
theorem max_depth_zero_fetches_only_seed_witness :
    witnessCfgD0.max_depth = 0 ∧ depthFuncNonneg witnessCfgD0 ∧
    ((∀ u ∈ fetchedUrls (crawl witnessCfgD0 witnessWorld 5).2,
        u = witnessCfgD0.start_url) ∧
      (fetchedUrls (crawl witnessCfgD0 witnessWorld 5).2).length ≤ 1) := by
  have hnn : depthFuncNonneg witnessCfgD0 := by
    simp [depthFuncNonneg, witnessCfgD0]
  exact ⟨rfl, hnn,
    max_depth_zero_fetches_only_seed witnessCfgD0 witnessWorld 5 rfl hnn⟩

def c8goodPage1 : PageData :=
  { url := "https://e.test/1"
    title := some "Hello World"
    content := "xyz"
    status_code := 200
    links := some []
    same_domain_links := []
    is_fetched := true
    error_message := none }

def c8goodPage2 : PageData :=
  { url := "https://e.test/2"
    title := some "Other"
    content := "nothing here"
    status_code := 200
    links := some []
    same_domain_links := []
    is_fetched := true
    error_message := none }

def c8goodReport : CrawlResults :=
  { crawl_metadata := c8meta
    pages := [("https://e.test/1", c8goodPage1), ("https://e.test/2", c8goodPage2)]
    blocked_urls := ["https://e.test/blocked"]
    failed_urls := ["https://e.test/failed"] }

/-- Witness for the amended claim C8 at a concrete two-page report. -/
theorem filter_content_amended_witness :
    (c8goodReport.pages.all (fun p => p.2.title.isSome) = true) ∧
    filter_content c8goodReport "hello" = .ok
      { crawl_metadata :=
          { c8goodReport.crawl_metadata with
              filter_keyword := some "hello"
              filtered_pages := some (matchedPages c8goodReport "hello").length }
        pages := matchedPages c8goodReport "hello"
        blocked_urls := c8goodReport.blocked_urls
        failed_urls := c8goodReport.failed_urls } :=
  ⟨rfl, filter_content_amended c8goodReport "hello" rfl⟩

/-- Witness for claim C9 at a concrete fetch-successful URL. -/
theorem empty_selection_parses_empty_not_failed_witness :
    witnessWorld.fetchSuccess "https://s/a" = true ∧
    (WebPageParser.parse (fun _ h2 => h2) "text" none "https://s/a" =
        { content := "", links := none, title := none } ∧
      get_same_domain_links (fun _ => "s") "https://s/a" none = [] ∧
      (crawl_page witnessWorld witnessState "https://s/a").failed_urls =
        witnessState.failed_urls ∧
      "https://s/a" ∈ ((crawl_page witnessWorld witnessState
        "https://s/a").crawled_pages.map Prod.fst)) :=
  ⟨rfl, empty_selection_parses_empty_not_failed (fun _ h2 => h2) "text"
    "https://s/a" (fun _ => "s") "https://s/a" witnessWorld witnessState
    "https://s/a" rfl⟩
